import Mathlib

/-
Verification development for the bitcoin9to5 strategy and backtester.

The JavaScript sources (src/lib/strategy.js and the backtester engine) are
embedded shallowly: JS numbers become exact rationals, JS Date values become a
record of the observations the code makes on them (getUTCHours, getUTCMinutes,
getUTCDay, the ISO date string, and the epoch-millisecond value used for
durations), and the imperative candle loop becomes a fold over an explicit
state record.
-/


/-- Trading direction; the JS code uses the strings "long" and "short" both
for zones and for position sides. -/
inductive Side where
  | long : Side
  | short : Side
deriving DecidableEq, Repr

/-- A time of day from the zone configuration, as in the JS objects
with hour and minute fields. -/
structure TimeHM where
  hour : ℤ
  minute : ℤ
deriving DecidableEq, Repr

/-- Strategy configuration, from DEFAULT_CONFIG in strategy.js. -/
structure Config where
  profitTargetPct : ℚ
  tpZoneTrailingStopPct : ℚ
  tpZoneHoursThreshold : ℚ
  leverage : ℚ
  shortZoneStart : TimeHM
  shortZoneEnd : TimeHM
deriving DecidableEq, Repr

/-- Cost configuration, from DEFAULT_COSTS in strategy.js. -/
structure Costs where
  takerFeeBps : ℚ
  makerRebateBps : ℚ
  slippageBps : ℚ
  avgFundingRateBps : ℚ
  fundingIntervalHours : ℚ
deriving DecidableEq, Repr

/-- A JS Date value, embedded as the observations the strategy code makes on
it: epochMs is valueOf (used for durations), utcHours is getUTCHours,
utcMinutes is getUTCMinutes, utcDay is getUTCDay (always in 0..6, hence
Fin 7), and dateStr is the date component of toISOString (used for the
holiday lookup). -/
structure Timestamp where
  epochMs : ℤ
  utcHours : ℤ
  utcMinutes : ℤ
  utcDay : Fin 7
  dateStr : String
deriving DecidableEq, Repr

/-- One candle of price data: an object with timestamp, price (close),
high and low. -/
structure Candle where
  timestamp : Timestamp
  price : ℚ
  high : ℚ
  low : ℚ
deriving DecidableEq, Repr

/-- US market holidays, from the HOLIDAYS set in strategy.js. -/
def HOLIDAYS : List String :=
  ["2025-12-25", "2026-01-01", "2026-01-19", "2026-02-16", "2026-04-03",
   "2026-05-25", "2026-06-19", "2026-07-06", "2026-09-07", "2026-11-26",
   "2026-12-25"]

/-- DEFAULT_CONFIG from strategy.js. -/
def DEFAULT_CONFIG : Config :=
  { profitTargetPct := 1
    tpZoneTrailingStopPct := 0.5
    tpZoneHoursThreshold := 6
    leverage := 10
    shortZoneStart := { hour := 9, minute := 29 }
    shortZoneEnd := { hour := 16, minute := 1 } }

/-- DEFAULT_COSTS from strategy.js. -/
def DEFAULT_COSTS : Costs :=
  { takerFeeBps := 5
    makerRebateBps := 0
    slippageBps := 5
    avgFundingRateBps := 1
    fundingIntervalHours := 8 }

/-- getZone from strategy.js: weekend and holidays are long; otherwise the
local (UTC minus 5) time is compared against the short-zone window. -/
def getZone (date : Timestamp) (config : Config) : Side :=
  let hour := date.utcHours - 5
  let minute := date.utcMinutes
  let dayOfWeek : ℕ := date.utcDay
  if dayOfWeek = 0 ∨ dayOfWeek = 6 then Side.long
  else if date.dateStr ∈ HOLIDAYS then Side.long
  else if (hour > config.shortZoneStart.hour ∨
            (hour = config.shortZoneStart.hour ∧ minute ≥ config.shortZoneStart.minute)) ∧
          (hour < config.shortZoneEnd.hour ∨
            (hour = config.shortZoneEnd.hour ∧ minute < config.shortZoneEnd.minute))
  then Side.short else Side.long

/-- calcProfitPct from strategy.js. -/
def calcProfitPct (entryPrice currentPrice : ℚ) (side : Side) : ℚ :=
  (if side = Side.short then entryPrice - currentPrice else currentPrice - entryPrice)
    / entryPrice * 100

/-- shouldTakeProfit from strategy.js (kept for completeness). -/
def shouldTakeProfit (entryPrice currentPrice : ℚ) (side : Side) (targetPct : ℚ) : Bool :=
  decide (calcProfitPct entryPrice currentPrice side ≥ targetPct)

/-- shouldEnterTpZone from strategy.js: longs only, and only while more than
the threshold number of hours remain before the short zone. -/
def shouldEnterTpZone (side : Side) (hoursUntilShort threshold : ℚ) : Bool :=
  decide (side = Side.long ∧ hoursUntilShort > threshold)

/-- checkTpZoneExit from strategy.js. The JS function returns an object with
a shouldExit flag and a reason string; the embedding returns the reason as
an Option String ("below-entry", "trailing-stop" or "time-exit"). -/
def checkTpZoneExit (currentPrice entryPrice peakPrice trailingStopPct
    hoursUntilShort hoursThreshold : ℚ) : Option String :=
  if currentPrice < entryPrice then some ("below-entry")
  else if (peakPrice - currentPrice) / peakPrice * 100 ≥ trailingStopPct then
    some ("trailing-stop")
  else if hoursUntilShort ≤ hoursThreshold then some ("time-exit")
  else none

/-- The while loop of getHoursUntilShortZone: starting from nextDay, keep
advancing while it is Saturday or Sunday, counting days. The loop advances
modulo 7 and so terminates within a week; fuel 7 always suffices, matching
the JS while loop. Returns the final daysUntil counter. -/
def nextWeekdayLoop : ℕ → ℕ → ℕ → ℕ
  | 0, daysUntil, _ => daysUntil
  | fuel + 1, daysUntil, nextDay =>
    if nextDay = 0 ∨ nextDay = 6 then
      nextWeekdayLoop fuel (daysUntil + 1) ((nextDay + 1) % 7)
    else daysUntil

/-- getHoursUntilShortZone from strategy.js. -/
def getHoursUntilShortZone (date : Timestamp) (config : Config) : ℚ :=
  let etHour := date.utcHours - 5
  let etMinute := date.utcMinutes
  let dayOfWeek : ℕ := date.utcDay
  let targetMinutes := config.shortZoneStart.hour * 60 + config.shortZoneStart.minute
  let currentMinutes := etHour * 60 + etMinute
  if 1 ≤ dayOfWeek ∧ dayOfWeek ≤ 5 ∧ currentMinutes < targetMinutes then
    ((targetMinutes - currentMinutes : ℤ) : ℚ) / 60
  else
    let daysUntil := nextWeekdayLoop 7 1 ((dayOfWeek + 1) % 7)
    let hoursToMidnight := ((24 * 60 - currentMinutes : ℤ) : ℚ) / 60
    let hoursAfterMidnight := ((targetMinutes : ℤ) : ℚ) / 60
    hoursToMidnight + ((daysUntil : ℚ) - 1) * 24 + hoursAfterMidnight

/-- calcTradePnl from strategy.js. -/
def calcTradePnl (entryPrice exitPrice : ℚ) (side : Side) (leverage : ℚ) : ℚ :=
  calcProfitPct entryPrice exitPrice side * leverage

/-- Result record of calcTradingCosts: the totalCostPct together with the
breakdown object of strategy.js. -/
structure TradingCostsResult where
  totalCostPct : ℚ
  feesPct : ℚ
  slippagePct : ℚ
  fundingPct : ℚ
  fundingPeriods : ℤ
deriving DecidableEq, Repr

/-- calcTradingCosts from strategy.js. The notionalValue argument is unused
by the JS computation as well (costs are percentages of notional). -/
def calcTradingCosts (notionalValue durationHours : ℚ) (side : Side) (costs : Costs) :
    TradingCostsResult :=
  let entryFeePct := costs.takerFeeBps / 100
  let exitFeePct := costs.takerFeeBps / 100
  let totalFeesPct := entryFeePct + exitFeePct
  let entrySlippagePct := costs.slippageBps / 100
  let exitSlippagePct := costs.slippageBps / 100
  let totalSlippagePct := entrySlippagePct + exitSlippagePct
  let fundingPeriods := ⌊durationHours / costs.fundingIntervalHours⌋
  let fundingPerPeriodPct := costs.avgFundingRateBps / 100
  let fundingMultiplier : ℚ := if side = Side.long then 1 else -1
  let totalFundingPct := (fundingPeriods : ℚ) * fundingPerPeriodPct * fundingMultiplier
  let totalCostPct := totalFeesPct + totalSlippagePct + totalFundingPct
  { totalCostPct := totalCostPct
    feesPct := totalFeesPct
    slippagePct := totalSlippagePct
    fundingPct := totalFundingPct
    fundingPeriods := fundingPeriods }

/-- The cost object stored on every trade by calcNetPnl: the breakdown of
calcTradingCosts plus totalCostPct and leveragedCostPct. -/
structure CostBreakdown where
  feesPct : ℚ
  slippagePct : ℚ
  fundingPct : ℚ
  fundingPeriods : ℤ
  totalCostPct : ℚ
  leveragedCostPct : ℚ
deriving DecidableEq, Repr

/-- Result record of calcNetPnl from strategy.js. -/
structure NetPnlResult where
  grossPnlPct : ℚ
  netPnlPct : ℚ
  costs : CostBreakdown
deriving DecidableEq, Repr

/-- calcNetPnl from strategy.js. -/
def calcNetPnl (entryPrice exitPrice : ℚ) (side : Side) (leverage durationHours : ℚ)
    (costs : Costs) : NetPnlResult :=
  let grossPnlPct := calcTradePnl entryPrice exitPrice side leverage
  let notionalValue : ℚ := 1
  let tc := calcTradingCosts notionalValue durationHours side costs
  let leveragedCostPct := tc.totalCostPct * leverage
  let netPnlPct := grossPnlPct - leveragedCostPct
  { grossPnlPct := grossPnlPct
    netPnlPct := netPnlPct
    costs :=
      { feesPct := tc.feesPct
        slippagePct := tc.slippagePct
        fundingPct := tc.fundingPct
        fundingPeriods := tc.fundingPeriods
        totalCostPct := tc.totalCostPct
        leveragedCostPct := leveragedCostPct } }

/-- An open position, as tracked by runBacktest in the backtester engine.
peakPrice is initialized to null in the JS code, hence Option. -/
structure Position where
  side : Side
  entryPrice : ℚ
  entryTime : Timestamp
  inTpZone : Bool
  peakPrice : Option ℚ
deriving DecidableEq, Repr

/-- A closed trade, as produced by closeTrade in the backtester engine. -/
structure Trade where
  entryTime : Timestamp
  exitTime : Timestamp
  entryPrice : ℚ
  exitPrice : ℚ
  side : Side
  exitReason : String
  grossPnlPct : ℚ
  netPnlPct : ℚ
  durationHours : ℚ
  costs : CostBreakdown
deriving DecidableEq, Repr

/-- closeTrade from the backtester engine. -/
def closeTrade (position : Position) (exitPrice : ℚ) (exitTime : Timestamp)
    (reason : String) (config : Config) (costs : Costs) : Trade :=
  let durationHours := ((exitTime.epochMs - position.entryTime.epochMs : ℤ) : ℚ) / (1000 * 60 * 60)
  let r := calcNetPnl position.entryPrice exitPrice position.side config.leverage
    durationHours costs
  { entryTime := position.entryTime
    exitTime := exitTime
    entryPrice := position.entryPrice
    exitPrice := exitPrice
    side := position.side
    exitReason := reason
    grossPnlPct := r.grossPnlPct
    netPnlPct := r.netPnlPct
    durationHours := durationHours
    costs := r.costs }

/-- The mutable local variables of the runBacktest loop, gathered in a
state record: the trade log, the open position, the previous zone, equity
and drawdown tracking, and the running cost totals. -/
structure BTState where
  trades : List Trade
  position : Option Position
  previousZone : Option Side
  equity : ℚ
  peakEquity : ℚ
  maxDrawdown : ℚ
  totalFees : ℚ
  totalSlippage : ℚ
  totalFunding : ℚ
deriving DecidableEq, Repr

/-- The initial loop state of runBacktest: no trades, no position, no
previous zone, equity and peak equity 100, all totals zero. -/
def initState : BTState :=
  { trades := []
    position := none
    previousZone := none
    equity := 100
    peakEquity := 100
    maxDrawdown := 0
    totalFees := 0
    totalSlippage := 0
    totalFunding := 0 }

/-- The five statements the JS loop repeats at every close site: push the
trade, add its net PnL to equity, add its leverage-scaled cost components to
the running totals, and clear the position. -/
def recordClose (config : Config) (costs : Costs) (s : BTState) (position : Position)
    (exitPrice : ℚ) (exitTime : Timestamp) (reason : String) : BTState :=
  let trade := closeTrade position exitPrice exitTime reason config costs
  { s with
    trades := s.trades ++ [trade]
    equity := s.equity + trade.netPnlPct
    totalFees := s.totalFees + trade.costs.feesPct * config.leverage
    totalSlippage := s.totalSlippage + trade.costs.slippagePct * config.leverage
    totalFunding := s.totalFunding + trade.costs.fundingPct * config.leverage
    position := none }

/-- The zone-flip block of the runBacktest loop body: when the current zone
differs from the previous zone (and a previous zone exists), close any open
position with reason "zone-flip" at the close price and open a fresh
position in the direction of the new zone. -/
def applyFlip (config : Config) (costs : Costs) (s : BTState) (candle : Candle) : BTState :=
  let currentZone := getZone candle.timestamp config
  match s.previousZone with
  | none => s
  | some previousZone =>
    if currentZone ≠ previousZone then
      let s1 :=
        match s.position with
        | some position =>
          recordClose config costs s position candle.price candle.timestamp ("zone-flip")
        | none => s
      { s1 with
        position := some
          { side := currentZone
            entryPrice := candle.price
            entryTime := candle.timestamp
            inTpZone := false
            peakPrice := none } }
    else s

/-- The bestPrice local of the runBacktest loop body: high for a long,
low for a short. -/
def bestPriceOf (position : Position) (candle : Candle) : ℚ :=
  if position.side = Side.long then candle.high else candle.low

/-- The peak update performed at the top of the take-profit-zone handling:
the stored peak is replaced by the candle high when the high exceeds it
(the JS null peak compares as 0). -/
def updatedPeak (position : Position) (candle : Candle) : ℚ :=
  if candle.high > position.peakPrice.getD 0 then candle.high else position.peakPrice.getD 0

/-- The estimated exit price the loop body picks for a take-profit-zone exit
reason: the trailing level below the peak for "trailing-stop", entry times
0.999 for "below-entry", and the candle close for "time-exit". -/
def tpExitPrice (config : Config) (position : Position) (candle : Candle)
    (reason : String) : ℚ :=
  if reason = "trailing-stop" then
    updatedPeak position candle * (1 - config.tpZoneTrailingStopPct / 100)
  else if reason = "below-entry" then position.entryPrice * 0.999
  else candle.price

/-- The position-evaluation block of the runBacktest loop body: the
take-profit-zone handling for longs already in the TP zone, and otherwise
the regular profit-target check. -/
def checkPosition (config : Config) (costs : Costs) (s : BTState) (candle : Candle) : BTState :=
  match s.position with
  | none => s
  | some position =>
    let bestProfitPct := calcProfitPct position.entryPrice (bestPriceOf position candle)
      position.side
    if position.side = Side.long ∧ position.inTpZone = true then
      let peak := updatedPeak position candle
      let hoursUntilShort := getHoursUntilShortZone candle.timestamp config
      match checkTpZoneExit candle.low position.entryPrice peak
          config.tpZoneTrailingStopPct hoursUntilShort config.tpZoneHoursThreshold with
      | some reason =>
        recordClose config costs s position (tpExitPrice config position candle reason)
          candle.timestamp ("tp-" ++ reason)
      | none =>
        let updated := { position with peakPrice := some peak }
        { s with position := some updated }
    else
      if bestProfitPct ≥ config.profitTargetPct then
        let targetPrice :=
          if position.side = Side.long then
            position.entryPrice * (1 + config.profitTargetPct / 100)
          else position.entryPrice * (1 - config.profitTargetPct / 100)
        if position.side = Side.long then
          if shouldEnterTpZone position.side (getHoursUntilShortZone candle.timestamp config)
              config.tpZoneHoursThreshold then
            let entered :=
              { position with inTpZone := true, peakPrice := some (bestPriceOf position candle) }
            { s with position := some entered }
          else
            recordClose config costs s position targetPrice candle.timestamp ("profit-target")
        else
          recordClose config costs s position targetPrice candle.timestamp ("profit-target")
      else s

/-- One iteration of the runBacktest loop: zone flip, position evaluation,
then drawdown tracking and the previousZone update. -/
def step (config : Config) (costs : Costs) (s : BTState) (candle : Candle) : BTState :=
  let currentZone := getZone candle.timestamp config
  let s2 := checkPosition config costs (applyFlip config costs s candle) candle
  let peakEquity := if s2.equity > s2.peakEquity then s2.equity else s2.peakEquity
  let drawdown := (peakEquity - s2.equity) / peakEquity * 100
  let maxDrawdown := if drawdown > s2.maxDrawdown then drawdown else s2.maxDrawdown
  { s2 with
    peakEquity := peakEquity
    maxDrawdown := maxDrawdown
    previousZone := some currentZone }

/-- The candle loop of runBacktest. -/
def runLoop (config : Config) (costs : Costs) (priceData : List Candle) : BTState :=
  priceData.foldl (step config costs) initState

/-- The average of the trade returns, as computed in calculateStats
(0 for an empty list, guarding the division). -/
def avgReturn (returns : List ℚ) : ℚ :=
  if returns.length > 0 then returns.sum / (returns.length : ℚ) else 0

/-- The sample variance of the trade returns with the N minus 1 divisor, the
radicand of the stdDev computation in calculateStats. -/
def sampleVar (returns : List ℚ) : ℚ :=
  (returns.map (fun r => (r - avgReturn returns) ^ 2)).sum / ((returns.length : ℚ) - 1)

/-- The stdDev computation of calculateStats: the square root of the sample
variance when there are at least two returns, else 0. -/
noncomputable def stdDev (returns : List ℚ) : ℝ :=
  if returns.length > 1 then Real.sqrt ((sampleVar returns : ℚ) : ℝ) else 0

/-- The Sharpe-ratio computation of calculateStats: (mean over stdDev) times
the square root of 252 when stdDev is positive, else 0. The JS field is
named sharpeRatio. -/
noncomputable def sharpeRatioOf (returns : List ℚ) : ℝ :=
  if 0 < stdDev returns then ((avgReturn returns : ℚ) : ℝ) / stdDev returns * Real.sqrt 252
  else 0

/-- The stats sub-object of the backtest result (the fields the claims
refer to). -/
structure StatsRec where
  totalTrades : ℕ
  winningTrades : ℕ
  losingTrades : ℕ
  avgWin : ℚ
  avgLoss : ℚ
  avgTradeDuration : ℚ
  totalCostsFees : ℚ
  totalCostsSlippage : ℚ
  totalCostsFunding : ℚ
deriving DecidableEq, Repr

/-- The result object of runBacktest. The JS field sharpeRatio is named
sharpe here. -/
structure BacktestResult where
  trades : List Trade
  grossPnlPct : ℚ
  netPnlPct : ℚ
  totalPnlPct : ℚ
  winRate : ℚ
  maxDrawdownPct : ℚ
  sharpe : ℝ
  stats : StatsRec

/-- calculateStats from the backtester engine, restricted to the fields the
claims are about. -/
noncomputable def calculateStats (trades : List Trade) (finalEquity maxDrawdown : ℚ)
    (totalFees totalSlippage totalFunding : ℚ) : BacktestResult :=
  let winningTrades := trades.filter (fun t => decide (t.netPnlPct > 0))
  let losingTrades := trades.filter (fun t => decide (t.netPnlPct ≤ 0))
  let netPnlPct := finalEquity - 100
  let grossPnlPct := (trades.map (fun t => t.grossPnlPct)).sum
  let returns := trades.map (fun t => t.netPnlPct)
  { trades := trades
    grossPnlPct := grossPnlPct
    netPnlPct := netPnlPct
    totalPnlPct := netPnlPct
    winRate :=
      if trades.length > 0 then ((winningTrades.length : ℚ) / (trades.length : ℚ)) * 100
      else 0
    maxDrawdownPct := maxDrawdown
    sharpe := sharpeRatioOf returns
    stats :=
      { totalTrades := trades.length
        winningTrades := winningTrades.length
        losingTrades := losingTrades.length
        avgWin :=
          if winningTrades.length > 0 then
            (winningTrades.map (fun t => t.netPnlPct)).sum / (winningTrades.length : ℚ)
          else 0
        avgLoss :=
          if losingTrades.length > 0 then
            (losingTrades.map (fun t => t.netPnlPct)).sum / (losingTrades.length : ℚ)
          else 0
        avgTradeDuration :=
          if trades.length > 0 then
            (trades.map (fun t => t.durationHours)).sum / (trades.length : ℚ)
          else 0
        totalCostsFees := totalFees
        totalCostsSlippage := totalSlippage
        totalCostsFunding := totalFunding } }

/-- The loop state of runBacktest after the loop and the end-of-data block:
any remaining position is closed at the last candle with reason
"backtest-end" (the JS code also checks that the data is nonempty). -/
def finalState (config : Config) (costs : Costs) (priceData : List Candle) : BTState :=
  let s := runLoop config costs priceData
  match s.position, priceData.getLast? with
  | some position, some lastCandle =>
    recordClose config costs s position lastCandle.price lastCandle.timestamp
      ("backtest-end")
  | _, _ => s

/-- runBacktest from the backtester engine: run the candle loop, close any
remaining position at the last candle with reason "backtest-end", then
aggregate the statistics. -/
noncomputable def runBacktest (priceData : List Candle) (config : Config) (costs : Costs) :
    BacktestResult :=
  let s2 := finalState config costs priceData
  calculateStats s2.trades s2.equity s2.maxDrawdown s2.totalFees s2.totalSlippage
    s2.totalFunding

/-- Spec-side definition (4.2): the signed percentage price move in the
direction of the trade, long (exit minus entry) over entry, short
(entry minus exit) over entry, times 100. -/
def claimedPricePct (t : Trade) : ℚ :=
  (if t.side = Side.long then (t.exitPrice - t.entryPrice) / t.entryPrice
   else (t.entryPrice - t.exitPrice) / t.entryPrice) * 100

/-- Spec-side definition (4.2): the round-trip cost percentage as stated in
the cost-identity claim: twice the taker fee, twice the slippage, plus the
signed funding for each completed funding interval. -/
def claimedTotalCostPct (costs : Costs) (t : Trade) : ℚ :=
  2 * (costs.takerFeeBps / 100) + 2 * (costs.slippageBps / 100) +
    (⌊t.durationHours / costs.fundingIntervalHours⌋ : ℚ) * (costs.avgFundingRateBps / 100) *
      (if t.side = Side.long then 1 else -1)

/-- The drawdown of a loop state as recomputed by the drawdown-tracking
block: (peakEquity minus equity) over peakEquity, times 100. After a step
this is exactly the drawdown value the step computed, because the step
stores the updated peak equity. -/
def ddPost (s : BTState) : ℚ := (s.peakEquity - s.equity) / s.peakEquity * 100

/-- The per-candle drawdown values along a run: for each candle, the
drawdown recomputed after that candle has been fully processed. -/
def ddTrajectory (config : Config) (costs : Costs) : BTState → List Candle → List ℚ
  | _, [] => []
  | s, candle :: rest =>
    ddPost (step config costs s candle) ::
      ddTrajectory config costs (step config costs s candle) rest

/-- One closure of the per-closure drawdown recomputation described by the
claim for maxDrawdownPct: add the net PnL of the trade to equity, update the
peak, recompute the drawdown, and keep the maximum. -/
def perClosureFold (acc : ℚ × ℚ × ℚ) (t : Trade) : ℚ × ℚ × ℚ :=
  let equity := acc.1 + t.netPnlPct
  let peakEquity := max acc.2.1 equity
  let drawdown := (peakEquity - equity) / peakEquity * 100
  (equity, peakEquity, max acc.2.2 drawdown)

/-- Spec-side definition: the maximum drawdown recomputed after every trade
closure (including the final one), starting from equity 100, as the claim
for maxDrawdownPct states it. -/
def claimedMaxDrawdownPerClosure (trades : List Trade) : ℚ :=
  (trades.foldl perClosureFold (100, 100, 0)).2.2

/-- A day-of-week number (0 = Sunday .. 6 = Saturday) that is neither
Saturday nor Sunday, the condition the day-skipping loop tests. -/
def IsWeekday (d : ℕ) : Prop := ¬(d = 0 ∨ d = 6)

instance (d : ℕ) : Decidable (IsWeekday d) := by
  unfold IsWeekday
  infer_instance

/-- Monday 2026-03-02 14:28 UTC, which is 09:28 ET: one minute before the
short zone opens, so the zone is long. -/
def tsMon0928 : Timestamp :=
  { epochMs := 1772461680000
    utcHours := 14
    utcMinutes := 28
    utcDay := 1
    dateStr := "2026-03-02" }

/-- Monday 2026-03-02 14:29 UTC, which is 09:29 ET: the short zone opens. -/
def tsMon0929 : Timestamp :=
  { epochMs := 1772461740000
    utcHours := 14
    utcMinutes := 29
    utcDay := 1
    dateStr := "2026-03-02" }

/-- A flat candle in the long zone. -/
def cEx1 : Candle := { timestamp := tsMon0928, price := 100000, high := 100000, low := 100000 }

/-- A flat candle in the short zone: the zone flips here and a short
position is opened. -/
def cEx2 : Candle := { timestamp := tsMon0929, price := 100000, high := 100000, low := 100000 }

/-- A two-candle run: one zone flip opening a short at the second candle,
which is then closed by the end-of-data rule at the same price, losing
exactly the leveraged round-trip costs (2 percent of equity). -/
def exCandles : List Candle := [cEx1, cEx2]

/-- The loop state after the first example candle. -/
def exState1 : BTState :=
  { trades := []
    position := none
    previousZone := some Side.long
    equity := 100
    peakEquity := 100
    maxDrawdown := 0
    totalFees := 0
    totalSlippage := 0
    totalFunding := 0 }

/-- The short position opened at the second example candle. -/
def exPosShort : Position :=
  { side := Side.short
    entryPrice := 100000
    entryTime := tsMon0929
    inTpZone := false
    peakPrice := none }

/-- The loop state after both example candles. -/
def exState2 : BTState :=
  { trades := []
    position := some exPosShort
    previousZone := some Side.short
    equity := 100
    peakEquity := 100
    maxDrawdown := 0
    totalFees := 0
    totalSlippage := 0
    totalFunding := 0 }

/-- The single trade of the example run: the short position closed by the
end-of-data rule at its entry price. -/
def exTrade : Trade :=
  closeTrade exPosShort 100000 tsMon0929 ("backtest-end") DEFAULT_CONFIG DEFAULT_COSTS

/-- Saturday 2026-02-28 12:00 UTC. -/
def tsSat : Timestamp :=
  { epochMs := 1772280000000
    utcHours := 12
    utcMinutes := 0
    utcDay := 6
    dateStr := "2026-02-28" }

/-- The fresh position the zone-flip block opens at a candle. -/
def freshPosition (config : Config) (c : Candle) : Position :=
  { side := getZone c.timestamp config
    entryPrice := c.price
    entryTime := c.timestamp
    inTpZone := false
    peakPrice := none }

/-- The loop state that a run settles into while no zone change occurs: the
initial state with the previous zone recorded. -/
def uniformState (z : Side) : BTState :=
  { initState with previousZone := some z }

/-- A Saturday candle (the zone is long). -/
def cSat : Candle := { timestamp := tsSat, price := 100000, high := 100000, low := 100000 }

/-- A falling candle in the short zone: the short position of the example
state reaches its profit target. -/
def cExShortTarget : Candle :=
  { timestamp := tsMon0929, price := 98900, high := 98900, low := 98900 }

/-- A long position already in the TP zone, with a recorded peak. -/
def exPosTp : Position :=
  { side := Side.long
    entryPrice := 100000
    entryTime := tsMon0929
    inTpZone := true
    peakPrice := some 101500 }

/-- A loop state holding the TP-zone position. -/
def exStateTp : BTState :=
  { trades := []
    position := some exPosTp
    previousZone := some Side.long
    equity := 100
    peakEquity := 100
    maxDrawdown := 0
    totalFees := 0
    totalSlippage := 0
    totalFunding := 0 }

/-- A candle dipping below the entry price while in the TP zone. -/
def cExTpDip : Candle :=
  { timestamp := tsMon0928, price := 99000, high := 101600, low := 98500 }

/-! Theorems: helper lemmas first, then the claim theorems, their
witnesses and the counterexample. -/

/-! Helper lemmas about the aggregation step. -/

theorem calculateStats_trades (trades : List Trade) (e md f sl fu : ℚ) :
    (calculateStats trades e md f sl fu).trades = trades := rfl

theorem calculateStats_netPnlPct (trades : List Trade) (e md f sl fu : ℚ) :
    (calculateStats trades e md f sl fu).netPnlPct = e - 100 := rfl

theorem calculateStats_maxDrawdownPct (trades : List Trade) (e md f sl fu : ℚ) :
    (calculateStats trades e md f sl fu).maxDrawdownPct = md := rfl

theorem calculateStats_sharpe (trades : List Trade) (e md f sl fu : ℚ) :
    (calculateStats trades e md f sl fu).sharpe =
      sharpeRatioOf (trades.map (fun t => t.netPnlPct)) := rfl

/-- Claim C5: for every timestamp on a Saturday or Sunday, and for every
timestamp whose calendar date is in the holiday set, getZone returns long,
whatever the time of day and the configured short-zone window. -/
theorem claimC5 (ts : Timestamp) (config : Config)
    (h : (ts.utcDay : ℕ) = 0 ∨ (ts.utcDay : ℕ) = 6 ∨ ts.dateStr ∈ HOLIDAYS) :
    getZone ts config = Side.long := by
  unfold getZone
  rcases h with h | h | h
  · simp [h]
  · simp [h]
  · by_cases h0 : (ts.utcDay : ℕ) = 0 ∨ (ts.utcDay : ℕ) = 6
    · simp [h0]
    · simp [h0, h]

theorem claimC5_witness : getZone tsSat DEFAULT_CONFIG = Side.long :=
  claimC5 tsSat DEFAULT_CONFIG (Or.inr (Or.inl (by decide)))

/-- The day-skipping while loop of getHoursUntilShortZone finds exactly the
least positive number of days after which the day of week is neither
Saturday nor Sunday. -/
theorem nextWeekdayLoop_spec (d : Fin 7) :
    1 ≤ nextWeekdayLoop 7 1 (((d : ℕ) + 1) % 7) ∧
    IsWeekday (((d : ℕ) + nextWeekdayLoop 7 1 (((d : ℕ) + 1) % 7)) % 7) ∧
    ∀ k, 1 ≤ k → k < nextWeekdayLoop 7 1 (((d : ℕ) + 1) % 7) →
      ¬IsWeekday (((d : ℕ) + k) % 7) := by
  fin_cases d <;> decide

/-- Claim C6: getHoursUntilShortZone returns the same-day fractional gap to
the short-zone start when the day is a weekday and the local time precedes
the boundary; otherwise it returns hours to midnight, plus 24 hours for each
full intervening day skipped over Saturday and Sunday up to the next
weekday, plus the hours from midnight to the boundary on that weekday. -/
theorem claimC6 (ts : Timestamp) (config : Config) :
    (1 ≤ (ts.utcDay : ℕ) ∧ (ts.utcDay : ℕ) ≤ 5 ∧
        (ts.utcHours - 5) * 60 + ts.utcMinutes <
          config.shortZoneStart.hour * 60 + config.shortZoneStart.minute →
      getHoursUntilShortZone ts config =
        ((config.shortZoneStart.hour * 60 + config.shortZoneStart.minute -
            ((ts.utcHours - 5) * 60 + ts.utcMinutes) : ℤ) : ℚ) / 60) ∧
    (¬(1 ≤ (ts.utcDay : ℕ) ∧ (ts.utcDay : ℕ) ≤ 5 ∧
        (ts.utcHours - 5) * 60 + ts.utcMinutes <
          config.shortZoneStart.hour * 60 + config.shortZoneStart.minute) →
      ∃ daysUntil : ℕ, 1 ≤ daysUntil ∧
        IsWeekday (((ts.utcDay : ℕ) + daysUntil) % 7) ∧
        (∀ k, 1 ≤ k → k < daysUntil → ¬IsWeekday (((ts.utcDay : ℕ) + k) % 7)) ∧
        getHoursUntilShortZone ts config =
          ((24 * 60 - ((ts.utcHours - 5) * 60 + ts.utcMinutes) : ℤ) : ℚ) / 60 +
            ((daysUntil : ℚ) - 1) * 24 +
            ((config.shortZoneStart.hour * 60 + config.shortZoneStart.minute : ℤ) : ℚ) / 60) := by
  constructor
  · intro h
    simp only [getHoursUntilShortZone]
    rw [if_pos h]
  · intro h
    obtain ⟨h1, h2, h3⟩ := nextWeekdayLoop_spec ts.utcDay
    refine ⟨nextWeekdayLoop 7 1 (((ts.utcDay : ℕ) + 1) % 7), h1, h2, h3, ?_⟩
    simp only [getHoursUntilShortZone]
    rw [if_neg h]

theorem claimC6_witness :
    getHoursUntilShortZone tsMon0928 DEFAULT_CONFIG =
      ((DEFAULT_CONFIG.shortZoneStart.hour * 60 + DEFAULT_CONFIG.shortZoneStart.minute -
          ((tsMon0928.utcHours - 5) * 60 + tsMon0928.utcMinutes) : ℤ) : ℚ) / 60 :=
  (claimC6 tsMon0928 DEFAULT_CONFIG).1 (by decide)

/-- Claim C7: the reported Sharpe ratio treats each netPnlPct as one sample
return and equals mean over sample standard deviation (N minus 1 divisor)
times the square root of 252, and is 0 when there are fewer than two trades
or the sample variance is 0, with no division by zero. -/
theorem claimC7 (trades : List Trade) (finalEquity maxDrawdown totalFees totalSlippage
    totalFunding : ℚ) :
    (calculateStats trades finalEquity maxDrawdown totalFees totalSlippage
        totalFunding).sharpe =
      if 2 ≤ trades.length ∧ 0 < sampleVar (trades.map (fun t => t.netPnlPct)) then
        ((avgReturn (trades.map (fun t => t.netPnlPct)) : ℚ) : ℝ) /
            Real.sqrt ((sampleVar (trades.map (fun t => t.netPnlPct)) : ℚ) : ℝ) *
          Real.sqrt 252
      else 0 := by
  rw [calculateStats_sharpe]
  have hlen : (trades.map (fun t => t.netPnlPct)).length = trades.length :=
    List.length_map _ _
  unfold sharpeRatioOf stdDev
  rcases le_or_lt trades.length 1 with hle | hgt
  · rw [if_neg (by omega : ¬ (trades.map (fun t => t.netPnlPct)).length > 1)]
    rw [if_neg (lt_irrefl (0 : ℝ))]
    rw [if_neg (by omega : ¬(2 ≤ trades.length ∧
      0 < sampleVar (trades.map (fun t => t.netPnlPct))))]
  · rw [if_pos (by omega : (trades.map (fun t => t.netPnlPct)).length > 1)]
    by_cases hv : 0 < sampleVar (trades.map (fun t => t.netPnlPct))
    · rw [if_pos (Real.sqrt_pos.mpr (by exact_mod_cast hv)),
        if_pos ⟨by omega, hv⟩]
    · rw [if_neg (by
        intro hc
        exact hv (by exact_mod_cast Real.sqrt_pos.mp hc)),
        if_neg (by
          intro hc
          exact hv hc.2)]

/-- Claim C8: on the empty candle sequence runBacktest returns an empty
trade log and zero-valued aggregates, with every ratio guard avoiding
division by zero. -/
theorem claimC8 (config : Config) (costs : Costs) :
    (runBacktest [] config costs).trades = [] ∧
    (runBacktest [] config costs).netPnlPct = 0 ∧
    (runBacktest [] config costs).grossPnlPct = 0 ∧
    (runBacktest [] config costs).winRate = 0 ∧
    (runBacktest [] config costs).maxDrawdownPct = 0 ∧
    (runBacktest [] config costs).stats.avgWin = 0 ∧
    (runBacktest [] config costs).stats.avgLoss = 0 ∧
    (runBacktest [] config costs).sharpe = 0 := by
  have h : runBacktest [] config costs = calculateStats [] 100 0 0 0 0 := rfl
  rw [h]
  refine ⟨rfl, by norm_num [calculateStats_netPnlPct], rfl, rfl, rfl, rfl, rfl, ?_⟩
  rw [calculateStats_sharpe]
  simp [sharpeRatioOf, stdDev]

/-! Structural lemmas about one loop iteration. -/

theorem recordClose_fields (config : Config) (costs : Costs) (s : BTState) (pos : Position)
    (ep : ℚ) (et : Timestamp) (r : String) :
    (recordClose config costs s pos ep et r).trades =
        s.trades ++ [closeTrade pos ep et r config costs] ∧
    (recordClose config costs s pos ep et r).equity =
        s.equity + (closeTrade pos ep et r config costs).netPnlPct ∧
    (recordClose config costs s pos ep et r).position = none ∧
    (recordClose config costs s pos ep et r).maxDrawdown = s.maxDrawdown ∧
    (recordClose config costs s pos ep et r).peakEquity = s.peakEquity ∧
    (recordClose config costs s pos ep et r).previousZone = s.previousZone :=
  ⟨rfl, rfl, rfl, rfl, rfl, rfl⟩

theorem step_trades_def (config : Config) (costs : Costs) (s : BTState) (c : Candle) :
    (step config costs s c).trades =
      (checkPosition config costs (applyFlip config costs s c) c).trades := rfl

theorem step_equity_def (config : Config) (costs : Costs) (s : BTState) (c : Candle) :
    (step config costs s c).equity =
      (checkPosition config costs (applyFlip config costs s c) c).equity := rfl

theorem step_position_def (config : Config) (costs : Costs) (s : BTState) (c : Candle) :
    (step config costs s c).position =
      (checkPosition config costs (applyFlip config costs s c) c).position := rfl

/-- The cost identity of every closed trade, in the form the spec states it:
gross PnL is the signed favorable price move times leverage, and net PnL is
gross PnL minus leverage times the round-trip cost percentage. -/
theorem closeTrade_cost_identity (config : Config) (costs : Costs) (pos : Position)
    (ep : ℚ) (et : Timestamp) (r : String) :
    (closeTrade pos ep et r config costs).grossPnlPct =
      claimedPricePct (closeTrade pos ep et r config costs) * config.leverage ∧
    (closeTrade pos ep et r config costs).netPnlPct =
      (closeTrade pos ep et r config costs).grossPnlPct -
        config.leverage * claimedTotalCostPct costs (closeTrade pos ep et r config costs) := by
  cases hs : pos.side <;>
    simp [closeTrade, calcNetPnl, calcTradePnl, calcProfitPct, calcTradingCosts,
      claimedPricePct, claimedTotalCostPct, hs] <;>
    ring

theorem applyFlip_eq_of_noPrev (config : Config) (costs : Costs) (s : BTState) (c : Candle)
    (h : s.previousZone = none) : applyFlip config costs s c = s := by
  simp only [applyFlip, h]

theorem applyFlip_eq_of_sameZone (config : Config) (costs : Costs) (s : BTState) (c : Candle)
    (pz : Side) (h : s.previousZone = some pz) (hz : ¬getZone c.timestamp config ≠ pz) :
    applyFlip config costs s c = s := by
  simp only [applyFlip, h, if_neg hz]

theorem applyFlip_eq_of_flip_noPos (config : Config) (costs : Costs) (s : BTState) (c : Candle)
    (pz : Side) (h : s.previousZone = some pz) (hz : getZone c.timestamp config ≠ pz)
    (hp : s.position = none) :
    applyFlip config costs s c = { s with position := some (freshPosition config c) } := by
  simp only [applyFlip, h, if_pos hz, hp, freshPosition]

theorem applyFlip_eq_of_flip_close (config : Config) (costs : Costs) (s : BTState) (c : Candle)
    (pz : Side) (p : Position) (h : s.previousZone = some pz)
    (hz : getZone c.timestamp config ≠ pz) (hp : s.position = some p) :
    applyFlip config costs s c =
      { recordClose config costs s p c.price c.timestamp ("zone-flip") with
        position := some (freshPosition config c) } := by
  simp only [applyFlip, h, if_pos hz, hp, freshPosition]

/-- Effect of the zone-flip block on the loop state: it appends at most one
zone-flip trade of the pre-state position, any position it leaves behind is
either the fresh one entered at this candle or the untouched old one, and it
does not touch the drawdown tracking fields. -/
theorem applyFlip_effect (config : Config) (costs : Costs) (s : BTState) (c : Candle) :
    ∃ l : List Trade,
      (applyFlip config costs s c).trades = s.trades ++ l ∧
      (applyFlip config costs s c).equity =
        s.equity + (l.map (fun t => t.netPnlPct)).sum ∧
      (∀ t ∈ l, (∃ pos ep et r, t = closeTrade pos ep et r config costs) ∧
        ∃ p, s.position = some p ∧ t.entryTime = p.entryTime) ∧
      (∀ q, (applyFlip config costs s c).position = some q →
        q.entryTime = c.timestamp ∨ s.position = some q) ∧
      (applyFlip config costs s c).maxDrawdown = s.maxDrawdown ∧
      (applyFlip config costs s c).peakEquity = s.peakEquity := by
  rcases hpz : s.previousZone with _ | pz
  · rw [applyFlip_eq_of_noPrev config costs s c hpz]
    exact ⟨[], by simp, by simp, by simp, fun q hq => Or.inr hq, rfl, rfl⟩
  · by_cases hz : getZone c.timestamp config ≠ pz
    · rcases hp : s.position with _ | p
      · rw [applyFlip_eq_of_flip_noPos config costs s c pz hpz hz hp]
        refine ⟨[], by simp, by simp, by simp, ?_, rfl, rfl⟩
        intro q hq
        simp only [Option.some.injEq] at hq
        left
        rw [← hq]
        rfl
      · rw [applyFlip_eq_of_flip_close config costs s c pz p hpz hz hp]
        refine ⟨[closeTrade p c.price c.timestamp ("zone-flip") config costs],
          by simp [recordClose], by simp [recordClose], ?_, ?_, by simp [recordClose],
          by simp [recordClose]⟩
        · intro t ht
          simp only [List.mem_singleton] at ht
          subst ht
          exact ⟨⟨p, _, _, _, rfl⟩, p, rfl, rfl⟩
        · intro q hq
          simp only [Option.some.injEq] at hq
          left
          rw [← hq]
          rfl
    · rw [applyFlip_eq_of_sameZone config costs s c pz hpz hz]
      exact ⟨[], by simp, by simp, by simp, fun q hq => Or.inr hq, rfl, rfl⟩

theorem checkPosition_eq_of_noPos (config : Config) (costs : Costs) (s : BTState) (c : Candle)
    (hp : s.position = none) : checkPosition config costs s c = s := by
  simp only [checkPosition, hp]

theorem checkPosition_eq_of_tpExit (config : Config) (costs : Costs) (s : BTState) (c : Candle)
    (p : Position) (reason : String) (hp : s.position = some p)
    (hside : p.side = Side.long) (hInTp : p.inTpZone = true)
    (hEx : checkTpZoneExit c.low p.entryPrice (updatedPeak p c)
        config.tpZoneTrailingStopPct (getHoursUntilShortZone c.timestamp config)
        config.tpZoneHoursThreshold = some reason) :
    checkPosition config costs s c =
      recordClose config costs s p (tpExitPrice config p c reason) c.timestamp
        ("tp-" ++ reason) := by
  simp only [checkPosition, hp, hside, hInTp, and_self, if_true, hEx]

theorem checkPosition_eq_of_tpStay (config : Config) (costs : Costs) (s : BTState) (c : Candle)
    (p : Position) (hp : s.position = some p)
    (hside : p.side = Side.long) (hInTp : p.inTpZone = true)
    (hEx : checkTpZoneExit c.low p.entryPrice (updatedPeak p c)
        config.tpZoneTrailingStopPct (getHoursUntilShortZone c.timestamp config)
        config.tpZoneHoursThreshold = none) :
    checkPosition config costs s c =
      { s with position := some ({ p with peakPrice := some (updatedPeak p c) }) } := by
  simp only [checkPosition, hp, hside, hInTp, and_self, if_true, hEx]

theorem checkPosition_eq_of_enterTp (config : Config) (costs : Costs) (s : BTState) (c : Candle)
    (p : Position) (hp : s.position = some p)
    (hside : p.side = Side.long) (hInTp : p.inTpZone = false)
    (hBest : calcProfitPct p.entryPrice (bestPriceOf p c) p.side ≥ config.profitTargetPct)
    (hEnter : shouldEnterTpZone p.side (getHoursUntilShortZone c.timestamp config)
      config.tpZoneHoursThreshold = true) :
    checkPosition config costs s c =
      { s with
        position := some ({ p with inTpZone := true, peakPrice := some (bestPriceOf p c) }) } := by
  rw [hside] at hBest hEnter
  simp only [checkPosition, hp, hside, hInTp, Bool.false_eq_true, and_false, if_false,
    eq_self_iff_true, if_true, if_pos hBest, hEnter]

theorem checkPosition_eq_of_targetLong (config : Config) (costs : Costs) (s : BTState)
    (c : Candle) (p : Position) (hp : s.position = some p)
    (hside : p.side = Side.long) (hInTp : p.inTpZone = false)
    (hBest : calcProfitPct p.entryPrice (bestPriceOf p c) p.side ≥ config.profitTargetPct)
    (hEnter : shouldEnterTpZone p.side (getHoursUntilShortZone c.timestamp config)
      config.tpZoneHoursThreshold = false) :
    checkPosition config costs s c =
      recordClose config costs s p (p.entryPrice * (1 + config.profitTargetPct / 100))
        c.timestamp ("profit-target") := by
  rw [hside] at hBest hEnter
  simp only [checkPosition, hp, hside, hInTp, Bool.false_eq_true, and_false, if_false,
    eq_self_iff_true, if_true, if_pos hBest, hEnter]

theorem checkPosition_eq_of_targetShort (config : Config) (costs : Costs) (s : BTState)
    (c : Candle) (p : Position) (hp : s.position = some p)
    (hside : p.side = Side.short)
    (hBest : calcProfitPct p.entryPrice (bestPriceOf p c) p.side ≥ config.profitTargetPct) :
    checkPosition config costs s c =
      recordClose config costs s p (p.entryPrice * (1 - config.profitTargetPct / 100))
        c.timestamp ("profit-target") := by
  have hlong : ¬p.side = Side.long := by
    rw [hside]
    intro hcontra
    cases hcontra
  have hTp : ¬(p.side = Side.long ∧ p.inTpZone = true) := fun h => hlong h.1
  simp only [checkPosition, hp, if_neg hTp, if_pos hBest, if_neg hlong]

theorem checkPosition_eq_of_noTarget (config : Config) (costs : Costs) (s : BTState)
    (c : Candle) (p : Position) (hp : s.position = some p)
    (hTp : ¬(p.side = Side.long ∧ p.inTpZone = true))
    (hBest : ¬calcProfitPct p.entryPrice (bestPriceOf p c) p.side ≥ config.profitTargetPct) :
    checkPosition config costs s c = s := by
  simp only [checkPosition, hp, if_neg hTp, if_neg hBest]

/-- Effect of the position-evaluation block on the loop state: it appends at
most one trade of the pre-state position, any position it leaves behind has
the entry time of the pre-state position, and the drawdown tracking fields
and previous zone are untouched. -/
theorem checkPosition_effect (config : Config) (costs : Costs) (s : BTState) (c : Candle) :
    ∃ l : List Trade,
      (checkPosition config costs s c).trades = s.trades ++ l ∧
      (checkPosition config costs s c).equity =
        s.equity + (l.map (fun t => t.netPnlPct)).sum ∧
      (∀ t ∈ l, (∃ pos ep et r, t = closeTrade pos ep et r config costs) ∧
        ∃ p, s.position = some p ∧ t.entryTime = p.entryTime) ∧
      (∀ q, (checkPosition config costs s c).position = some q →
        ∃ p, s.position = some p ∧ q.entryTime = p.entryTime) ∧
      (checkPosition config costs s c).maxDrawdown = s.maxDrawdown ∧
      (checkPosition config costs s c).peakEquity = s.peakEquity ∧
      (checkPosition config costs s c).previousZone = s.previousZone := by
  rcases hp : s.position with _ | p
  · rw [checkPosition_eq_of_noPos config costs s c hp]
    refine ⟨[], by simp, by simp, by simp, ?_, rfl, rfl, rfl⟩
    intro q hq
    rw [hp] at hq
    simp at hq
  · by_cases hTp : p.side = Side.long ∧ p.inTpZone = true
    · rcases hEx : checkTpZoneExit c.low p.entryPrice (updatedPeak p c)
          config.tpZoneTrailingStopPct (getHoursUntilShortZone c.timestamp config)
          config.tpZoneHoursThreshold with _ | reason
      · rw [checkPosition_eq_of_tpStay config costs s c p hp hTp.1 hTp.2 hEx]
        refine ⟨[], by simp, by simp, by simp, ?_, rfl, rfl, rfl⟩
        intro q hq
        simp only [Option.some.injEq] at hq
        exact ⟨p, rfl, by rw [← hq]⟩
      · rw [checkPosition_eq_of_tpExit config costs s c p reason hp hTp.1 hTp.2 hEx]
        refine ⟨[closeTrade p (tpExitPrice config p c reason) c.timestamp ("tp-" ++ reason)
            config costs],
          by simp [recordClose], by simp [recordClose], ?_, ?_, by simp [recordClose],
          by simp [recordClose], by simp [recordClose]⟩
        · intro t ht
          simp only [List.mem_singleton] at ht
          subst ht
          exact ⟨⟨p, _, _, _, rfl⟩, p, rfl, rfl⟩
        · intro q hq
          simp [recordClose] at hq
    · by_cases hBest : calcProfitPct p.entryPrice (bestPriceOf p c) p.side ≥
          config.profitTargetPct
      · rcases hside : p.side with _ | _
        · have hInTp : p.inTpZone = false := by
            rcases hb : p.inTpZone with _ | _
            · rfl
            · exact absurd ⟨hside, hb⟩ hTp
          rcases hEnter : shouldEnterTpZone p.side
              (getHoursUntilShortZone c.timestamp config) config.tpZoneHoursThreshold with _ | _
          · rw [checkPosition_eq_of_targetLong config costs s c p hp hside hInTp hBest hEnter]
            refine ⟨[closeTrade p (p.entryPrice * (1 + config.profitTargetPct / 100))
                c.timestamp ("profit-target") config costs],
              by simp [recordClose], by simp [recordClose], ?_, ?_, by simp [recordClose],
              by simp [recordClose], by simp [recordClose]⟩
            · intro t ht
              simp only [List.mem_singleton] at ht
              subst ht
              exact ⟨⟨p, _, _, _, rfl⟩, p, rfl, rfl⟩
            · intro q hq
              simp [recordClose] at hq
          · rw [checkPosition_eq_of_enterTp config costs s c p hp hside hInTp hBest hEnter]
            refine ⟨[], by simp, by simp, by simp, ?_, rfl, rfl, rfl⟩
            intro q hq
            simp only [Option.some.injEq] at hq
            exact ⟨p, rfl, by rw [← hq]⟩
        · rw [checkPosition_eq_of_targetShort config costs s c p hp hside hBest]
          refine ⟨[closeTrade p (p.entryPrice * (1 - config.profitTargetPct / 100))
              c.timestamp ("profit-target") config costs],
            by simp [recordClose], by simp [recordClose], ?_, ?_, by simp [recordClose],
            by simp [recordClose], by simp [recordClose]⟩
          · intro t ht
            simp only [List.mem_singleton] at ht
            subst ht
            exact ⟨⟨p, _, _, _, rfl⟩, p, rfl, rfl⟩
          · intro q hq
            simp [recordClose] at hq
      · rw [checkPosition_eq_of_noTarget config costs s c p hp hTp hBest]
        refine ⟨[], by simp, by simp, by simp, ?_, rfl, rfl, rfl⟩
        intro q hq
        rw [hp] at hq
        simp only [Option.some.injEq] at hq
        exact ⟨p, rfl, by rw [hq]⟩

/-- Effect of one full loop iteration on the trade log, equity, and the open
position: new trades are exactly the closures performed this candle, equity
moves by their summed net PnL, every new trade is a closeTrade record, and
entry times only ever come from this candle or the pre-state position. -/
theorem step_effect (config : Config) (costs : Costs) (s : BTState) (c : Candle) :
    ∃ l : List Trade,
      (step config costs s c).trades = s.trades ++ l ∧
      (step config costs s c).equity = s.equity + (l.map (fun t => t.netPnlPct)).sum ∧
      (∀ t ∈ l, ∃ pos ep et r, t = closeTrade pos ep et r config costs) ∧
      (∀ t ∈ l, t.entryTime = c.timestamp ∨
        ∃ p, s.position = some p ∧ t.entryTime = p.entryTime) ∧
      (∀ q, (step config costs s c).position = some q → q.entryTime = c.timestamp ∨
        ∃ p, s.position = some p ∧ q.entryTime = p.entryTime) := by
  obtain ⟨l1, h1t, h1e, h1m, h1p, _, _⟩ := applyFlip_effect config costs s c
  obtain ⟨l2, h2t, h2e, h2m, h2p, _, _, _⟩ :=
    checkPosition_effect config costs (applyFlip config costs s c) c
  refine ⟨l1 ++ l2, ?_, ?_, ?_, ?_, ?_⟩
  · rw [step_trades_def, h2t, h1t, List.append_assoc]
  · rw [step_equity_def, h2e, h1e, List.map_append, List.sum_append]
    ring
  · intro t ht
    rcases List.mem_append.mp ht with h | h
    · exact (h1m t h).1
    · exact (h2m t h).1
  · intro t ht
    rcases List.mem_append.mp ht with h | h
    · exact Or.inr (h1m t h).2
    · obtain ⟨p, hpos, hent⟩ := (h2m t h).2
      rcases h1p p hpos with hts | hold
      · exact Or.inl (hent.trans hts)
      · exact Or.inr ⟨p, hold, hent⟩
  · intro q hq
    rw [step_position_def] at hq
    obtain ⟨p, hpos, hent⟩ := h2p q hq
    rcases h1p p hpos with hts | hold
    · exact Or.inl (hent.trans hts)
    · exact Or.inr ⟨p, hold, hent⟩

theorem step_maxDrawdown_aux (config : Config) (costs : Costs) (s : BTState) (c : Candle) :
    (checkPosition config costs (applyFlip config costs s c) c).maxDrawdown =
      s.maxDrawdown := by
  obtain ⟨_, _, _, _, _, h1md, _⟩ := applyFlip_effect config costs s c
  obtain ⟨_, _, _, _, _, h2md, _, _⟩ :=
    checkPosition_effect config costs (applyFlip config costs s c) c
  rw [h2md, h1md]

/-- The step updates maxDrawdown to the maximum of the old value and the
drawdown of the post-step state. -/
theorem step_maxDrawdown (config : Config) (costs : Costs) (s : BTState) (c : Candle) :
    (step config costs s c).maxDrawdown =
      max s.maxDrawdown (ddPost (step config costs s c)) := by
  have haux := step_maxDrawdown_aux config costs s c
  show (if ((if (checkPosition config costs (applyFlip config costs s c) c).equity >
        (checkPosition config costs (applyFlip config costs s c) c).peakEquity then
        (checkPosition config costs (applyFlip config costs s c) c).equity
      else (checkPosition config costs (applyFlip config costs s c) c).peakEquity) -
        (checkPosition config costs (applyFlip config costs s c) c).equity) /
        (if (checkPosition config costs (applyFlip config costs s c) c).equity >
          (checkPosition config costs (applyFlip config costs s c) c).peakEquity then
          (checkPosition config costs (applyFlip config costs s c) c).equity
        else (checkPosition config costs (applyFlip config costs s c) c).peakEquity) * 100 >
        (checkPosition config costs (applyFlip config costs s c) c).maxDrawdown then
      ((if (checkPosition config costs (applyFlip config costs s c) c).equity >
        (checkPosition config costs (applyFlip config costs s c) c).peakEquity then
        (checkPosition config costs (applyFlip config costs s c) c).equity
      else (checkPosition config costs (applyFlip config costs s c) c).peakEquity) -
        (checkPosition config costs (applyFlip config costs s c) c).equity) /
        (if (checkPosition config costs (applyFlip config costs s c) c).equity >
          (checkPosition config costs (applyFlip config costs s c) c).peakEquity then
          (checkPosition config costs (applyFlip config costs s c) c).equity
        else (checkPosition config costs (applyFlip config costs s c) c).peakEquity) * 100
    else (checkPosition config costs (applyFlip config costs s c) c).maxDrawdown) =
      max s.maxDrawdown (ddPost (step config costs s c))
  rw [haux]
  rcases le_or_lt (((if (checkPosition config costs (applyFlip config costs s c) c).equity >
      (checkPosition config costs (applyFlip config costs s c) c).peakEquity then
      (checkPosition config costs (applyFlip config costs s c) c).equity
    else (checkPosition config costs (applyFlip config costs s c) c).peakEquity) -
      (checkPosition config costs (applyFlip config costs s c) c).equity) /
      (if (checkPosition config costs (applyFlip config costs s c) c).equity >
        (checkPosition config costs (applyFlip config costs s c) c).peakEquity then
        (checkPosition config costs (applyFlip config costs s c) c).equity
      else (checkPosition config costs (applyFlip config costs s c) c).peakEquity) * 100)
      s.maxDrawdown with hle | hlt
  · rw [if_neg (not_lt.mpr hle)]
    have : ddPost (step config costs s c) = (((if (checkPosition config costs
        (applyFlip config costs s c) c).equity >
        (checkPosition config costs (applyFlip config costs s c) c).peakEquity then
        (checkPosition config costs (applyFlip config costs s c) c).equity
      else (checkPosition config costs (applyFlip config costs s c) c).peakEquity) -
        (checkPosition config costs (applyFlip config costs s c) c).equity) /
        (if (checkPosition config costs (applyFlip config costs s c) c).equity >
          (checkPosition config costs (applyFlip config costs s c) c).peakEquity then
          (checkPosition config costs (applyFlip config costs s c) c).equity
        else (checkPosition config costs (applyFlip config costs s c) c).peakEquity) * 100) :=
      rfl
    rw [this, max_eq_left hle]
  · rw [if_pos hlt]
    have : ddPost (step config costs s c) = (((if (checkPosition config costs
        (applyFlip config costs s c) c).equity >
        (checkPosition config costs (applyFlip config costs s c) c).peakEquity then
        (checkPosition config costs (applyFlip config costs s c) c).equity
      else (checkPosition config costs (applyFlip config costs s c) c).peakEquity) -
        (checkPosition config costs (applyFlip config costs s c) c).equity) /
        (if (checkPosition config costs (applyFlip config costs s c) c).equity >
          (checkPosition config costs (applyFlip config costs s c) c).peakEquity then
          (checkPosition config costs (applyFlip config costs s c) c).equity
        else (checkPosition config costs (applyFlip config costs s c) c).peakEquity) * 100) :=
      rfl
    rw [this, max_eq_right (le_of_lt hlt)]

theorem finalState_effect (config : Config) (costs : Costs) (priceData : List Candle) :
    ∃ l : List Trade,
      (finalState config costs priceData).trades =
        (runLoop config costs priceData).trades ++ l ∧
      (finalState config costs priceData).equity =
        (runLoop config costs priceData).equity + (l.map (fun t => t.netPnlPct)).sum ∧
      (∀ t ∈ l, (∃ pos ep et r, t = closeTrade pos ep et r config costs) ∧
        ∃ p, (runLoop config costs priceData).position = some p ∧
          t.entryTime = p.entryTime) ∧
      (finalState config costs priceData).maxDrawdown =
        (runLoop config costs priceData).maxDrawdown := by
  simp only [finalState]
  rcases hp : (runLoop config costs priceData).position with _ | p
  · refine ⟨[], ?_, ?_, ?_, ?_⟩ <;>
      rcases priceData.getLast? with _ | lc <;> simp
  · rcases hl : priceData.getLast? with _ | lc
    · exact ⟨[], by simp, by simp, by simp, rfl⟩
    · refine ⟨[closeTrade p lc.price lc.timestamp ("backtest-end") config costs],
        by simp [recordClose], by simp [recordClose], ?_, by simp [recordClose]⟩
      intro t ht
      simp only [List.mem_singleton] at ht
      subst ht
      exact ⟨⟨p, _, _, _, rfl⟩, p, rfl, rfl⟩

theorem runBacktest_proj (priceData : List Candle) (config : Config) (costs : Costs) :
    (runBacktest priceData config costs).trades = (finalState config costs priceData).trades ∧
    (runBacktest priceData config costs).netPnlPct =
      (finalState config costs priceData).equity - 100 ∧
    (runBacktest priceData config costs).maxDrawdownPct =
      (finalState config costs priceData).maxDrawdown :=
  ⟨rfl, rfl, rfl⟩

/-- The loop invariant behind the equity accounting: equity is always 100
plus the summed net PnL of the closed trades. -/
theorem foldl_equity_invariant (config : Config) (costs : Costs) :
    ∀ (cs : List Candle) (s : BTState),
      s.equity = 100 + (s.trades.map (fun t => t.netPnlPct)).sum →
      (cs.foldl (step config costs) s).equity =
        100 + ((cs.foldl (step config costs) s).trades.map (fun t => t.netPnlPct)).sum := by
  intro cs
  induction cs with
  | nil => intro s h; exact h
  | cons c rest ih =>
    intro s h
    rw [List.foldl_cons]
    apply ih
    obtain ⟨l, ht, he, _, _, _⟩ := step_effect config costs s c
    rw [he, ht, h, List.map_append, List.sum_append]
    ring

/-- Claim C10: the reported top-level netPnlPct equals the sum of netPnlPct
over all trades in the returned log. -/
theorem claimC10 (priceData : List Candle) (config : Config) (costs : Costs) :
    (runBacktest priceData config costs).netPnlPct =
      ((runBacktest priceData config costs).trades.map (fun t => t.netPnlPct)).sum := by
  obtain ⟨htr, hnet, _⟩ := runBacktest_proj priceData config costs
  rw [htr, hnet]
  obtain ⟨l, hft, hfe, _, _⟩ := finalState_effect config costs priceData
  have hloop := foldl_equity_invariant config costs priceData initState (by simp [initState])
  rw [hfe, hft]
  have : (runLoop config costs priceData).equity =
      100 + ((runLoop config costs priceData).trades.map (fun t => t.netPnlPct)).sum := hloop
  rw [this, List.map_append, List.sum_append]
  ring

/-- The loop invariant behind the cost identity: every recorded trade is a
closeTrade record for this run's configuration. -/
theorem foldl_trades_shape (config : Config) (costs : Costs) :
    ∀ (cs : List Candle) (s : BTState),
      (∀ t ∈ s.trades, ∃ pos ep et r, t = closeTrade pos ep et r config costs) →
      ∀ t ∈ (cs.foldl (step config costs) s).trades,
        ∃ pos ep et r, t = closeTrade pos ep et r config costs := by
  intro cs
  induction cs with
  | nil => intro s h; exact h
  | cons c rest ih =>
    intro s h
    rw [List.foldl_cons]
    apply ih
    obtain ⟨l, ht, _, hm, _, _⟩ := step_effect config costs s c
    rw [ht]
    intro t hmem
    rcases List.mem_append.mp hmem with hmem | hmem
    · exact h t hmem
    · exact hm t hmem

/-- Claim C3: the cost identity of every emitted trade: net PnL equals gross
PnL minus leverage times the claimed round-trip cost percentage, and gross
PnL is the signed favorable price move times leverage. -/
theorem claimC3 (priceData : List Candle) (config : Config) (costs : Costs) :
    ∀ t ∈ (runBacktest priceData config costs).trades,
      t.grossPnlPct = claimedPricePct t * config.leverage ∧
      t.netPnlPct = t.grossPnlPct - config.leverage * claimedTotalCostPct costs t := by
  intro t ht
  obtain ⟨htr, _, _⟩ := runBacktest_proj priceData config costs
  rw [htr] at ht
  obtain ⟨l, hft, _, hfm, _⟩ := finalState_effect config costs priceData
  rw [hft] at ht
  have hshape : ∃ pos ep et r, t = closeTrade pos ep et r config costs := by
    rcases List.mem_append.mp ht with hmem | hmem
    · exact foldl_trades_shape config costs priceData initState (by simp [initState]) t hmem
    · exact (hfm t hmem).1
  obtain ⟨pos, ep, et, r, rfl⟩ := hshape
  exact closeTrade_cost_identity config costs pos ep et r

theorem foldl_maxDrawdown (config : Config) (costs : Costs) :
    ∀ (cs : List Candle) (s : BTState),
      (cs.foldl (step config costs) s).maxDrawdown =
        (ddTrajectory config costs s cs).foldl max s.maxDrawdown := by
  intro cs
  induction cs with
  | nil => intro s; rfl
  | cons c rest ih =>
    intro s
    rw [List.foldl_cons, ih (step config costs s c)]
    show _ = List.foldl max s.maxDrawdown
      (ddPost (step config costs s c) :: ddTrajectory config costs (step config costs s c) rest)
    rw [List.foldl_cons]
    congr 1
    rw [step_maxDrawdown]

theorem le_foldl_max : ∀ (ds : List ℚ) (a : ℚ), a ≤ ds.foldl max a := by
  intro ds
  induction ds with
  | nil => intro a; exact le_refl a
  | cons d rest ih =>
    intro a
    rw [List.foldl_cons]
    exact le_trans (le_max_left a d) (ih (max a d))

/-- Claim C4, amended: maxDrawdownPct is nonnegative and equals the maximum
of the per-candle drawdowns recomputed inside the loop (once per candle,
after that candle's closures); the final backtest-end closure is not part of
this maximum. -/
theorem claimC4 (priceData : List Candle) (config : Config) (costs : Costs) :
    (runBacktest priceData config costs).maxDrawdownPct =
      (ddTrajectory config costs initState priceData).foldl max 0 ∧
    0 ≤ (runBacktest priceData config costs).maxDrawdownPct := by
  obtain ⟨_, _, hmd⟩ := runBacktest_proj priceData config costs
  obtain ⟨_, _, _, _, hfmd⟩ := finalState_effect config costs priceData
  have hloop : (runLoop config costs priceData).maxDrawdown =
      (ddTrajectory config costs initState priceData).foldl max 0 :=
    foldl_maxDrawdown config costs priceData initState
  constructor
  · rw [hmd, hfmd, hloop]
  · rw [hmd, hfmd, hloop]
    exact le_foldl_max _ 0

theorem step_init (config : Config) (costs : Costs) (c : Candle) :
    step config costs initState c =
      { initState with previousZone := some (getZone c.timestamp config) } := by
  have h1 : applyFlip config costs initState c = initState :=
    applyFlip_eq_of_noPrev config costs initState c rfl
  have h2 : checkPosition config costs initState c = initState :=
    checkPosition_eq_of_noPos config costs initState c rfl
  simp only [step]
  rw [h1, h2]
  simp [initState]

theorem step_uniform (config : Config) (costs : Costs) (c : Candle) (z : Side)
    (h : getZone c.timestamp config = z) :
    step config costs (uniformState z) c = uniformState z := by
  have h1 : applyFlip config costs (uniformState z) c = uniformState z :=
    applyFlip_eq_of_sameZone config costs (uniformState z) c z rfl (by
      rw [h]
      exact fun hc => hc rfl)
  have h2 : checkPosition config costs (uniformState z) c = uniformState z :=
    checkPosition_eq_of_noPos config costs (uniformState z) c rfl
  simp only [step]
  rw [h1, h2]
  simp [uniformState, initState, h]

theorem foldl_uniform (config : Config) (costs : Costs) (z : Side) :
    ∀ cs : List Candle, (∀ c ∈ cs, getZone c.timestamp config = z) →
      cs.foldl (step config costs) (uniformState z) = uniformState z := by
  intro cs
  induction cs with
  | nil => intro _; rfl
  | cons c rest ih =>
    intro h
    rw [List.foldl_cons, step_uniform config costs c z (h c (List.mem_cons_self c rest))]
    exact ih (fun c' hc' => h c' (List.mem_cons_of_mem c hc'))

/-- The loop invariant behind the entry-time tracking: if every already
recorded entry time and the open position's entry time lie in A, and every
remaining candle timestamp lies in A, this still holds after the fold. -/
theorem foldl_entryTimes (config : Config) (costs : Costs) (A : Timestamp → Prop) :
    ∀ (cs : List Candle) (s : BTState),
      (∀ c ∈ cs, A c.timestamp) →
      (∀ t ∈ s.trades, A t.entryTime) →
      (∀ p, s.position = some p → A p.entryTime) →
      (∀ t ∈ (cs.foldl (step config costs) s).trades, A t.entryTime) ∧
      (∀ p, (cs.foldl (step config costs) s).position = some p → A p.entryTime) := by
  intro cs
  induction cs with
  | nil => intro s _ h1 h2; exact ⟨h1, h2⟩
  | cons c rest ih =>
    intro s hA h1 h2
    rw [List.foldl_cons]
    obtain ⟨l, ht, _, _, hm, hq⟩ := step_effect config costs s c
    apply ih
    · intro c' hc'
      exact hA c' (List.mem_cons_of_mem c hc')
    · rw [ht]
      intro t hmem
      rcases List.mem_append.mp hmem with hmem | hmem
      · exact h1 t hmem
      · rcases hm t hmem with hts | ⟨p, hp, he⟩
        · rw [hts]
          exact hA c (List.mem_cons_self c rest)
        · rw [he]
          exact h2 p hp
    · intro p hp
      rcases hq p hp with hts | ⟨p', hp', he⟩
      · rw [hts]
        exact hA c (List.mem_cons_self c rest)
      · rw [he]
        exact h2 p' hp'

/-- Claim C9: positions are only ever opened on a zone change, which needs a
previous candle. On a nonempty uniform-zone sequence the trade log is empty;
in general every entry time is the timestamp of a candle after the first,
and when those differ from the first timestamp (the input contract orders
candles by ascending timestamp), no entry time equals it. -/
theorem claimC9 (c0 : Candle) (rest : List Candle) (config : Config) (costs : Costs) :
    ((∃ z, ∀ c ∈ c0 :: rest, getZone c.timestamp config = z) →
      (runBacktest (c0 :: rest) config costs).trades = []) ∧
    (∀ t ∈ (runBacktest (c0 :: rest) config costs).trades,
      t.entryTime ∈ rest.map (fun c => c.timestamp)) ∧
    ((∀ c ∈ rest, c.timestamp ≠ c0.timestamp) →
      ∀ t ∈ (runBacktest (c0 :: rest) config costs).trades,
        t.entryTime ≠ c0.timestamp) := by
  obtain ⟨htr, _, _⟩ := runBacktest_proj (c0 :: rest) config costs
  have hstep0 : step config costs initState c0 =
      { initState with previousZone := some (getZone c0.timestamp config) } :=
    step_init config costs c0
  have hmain : ∀ t ∈ (runBacktest (c0 :: rest) config costs).trades,
      t.entryTime ∈ rest.map (fun c => c.timestamp) := by
    intro t ht
    rw [htr] at ht
    obtain ⟨l, hft, _, hfm, _⟩ := finalState_effect config costs (c0 :: rest)
    rw [hft] at ht
    have hrl : runLoop config costs (c0 :: rest) =
        rest.foldl (step config costs) (step config costs initState c0) := by
      rw [runLoop, List.foldl_cons]
    obtain ⟨hT, hP⟩ := foldl_entryTimes config costs
      (fun x => x ∈ rest.map (fun c => c.timestamp)) rest
      (step config costs initState c0)
      (fun c hc => List.mem_map_of_mem _ hc)
      (by rw [hstep0]; intro t' ht'; simp [initState] at ht')
      (by rw [hstep0]; intro p hp; simp [initState] at hp)
    rcases List.mem_append.mp ht with hmem | hmem
    · rw [hrl] at hmem
      exact hT t hmem
    · obtain ⟨p, hp, he⟩ := (hfm t hmem).2
      rw [hrl] at hp
      rw [he]
      exact hP p hp
  refine ⟨?_, hmain, ?_⟩
  · rintro ⟨z, hz⟩
    have hrl : runLoop config costs (c0 :: rest) = uniformState z := by
      rw [runLoop, List.foldl_cons, hstep0, hz c0 (List.mem_cons_self c0 rest)]
      exact foldl_uniform config costs z rest
        (fun c' hc' => hz c' (List.mem_cons_of_mem c0 hc'))
    rw [htr]
    simp [finalState, hrl, uniformState, initState]
  · intro hne t ht
    obtain ⟨c, hc, hct⟩ := List.mem_map.mp (hmain t ht)
    rw [← hct]
    exact hne c hc

/-- Claim C1: in the profit-target evaluation (open position, not in the TP
zone, best-case move at or beyond the target): a short always closes at the
theoretical short target price with reason "profit-target"; a long enters
the TP zone (recording the candle high as peak, no trade emitted) when more
than the threshold hours remain before the short zone, and otherwise closes
at the theoretical long target price with reason "profit-target". -/
theorem claimC1 (config : Config) (costs : Costs) (s : BTState) (c : Candle) (pos : Position)
    (hp : s.position = some pos) (hTp : pos.inTpZone = false)
    (hBest : calcProfitPct pos.entryPrice (bestPriceOf pos c) pos.side ≥
      config.profitTargetPct) :
    (pos.side = Side.short →
      (checkPosition config costs s c).position = none ∧
      ∃ t, (checkPosition config costs s c).trades = s.trades ++ [t] ∧
        t.exitReason = "profit-target" ∧
        t.exitPrice = pos.entryPrice * (1 - config.profitTargetPct / 100)) ∧
    (pos.side = Side.long →
      getHoursUntilShortZone c.timestamp config > config.tpZoneHoursThreshold →
      (checkPosition config costs s c).trades = s.trades ∧
      (checkPosition config costs s c).position =
        some ({ pos with inTpZone := true, peakPrice := some c.high })) ∧
    (pos.side = Side.long →
      ¬getHoursUntilShortZone c.timestamp config > config.tpZoneHoursThreshold →
      (checkPosition config costs s c).position = none ∧
      ∃ t, (checkPosition config costs s c).trades = s.trades ++ [t] ∧
        t.exitReason = "profit-target" ∧
        t.exitPrice = pos.entryPrice * (1 + config.profitTargetPct / 100)) := by
  refine ⟨?_, ?_, ?_⟩
  · intro hside
    rw [checkPosition_eq_of_targetShort config costs s c pos hp hside hBest]
    refine ⟨rfl, closeTrade pos (pos.entryPrice * (1 - config.profitTargetPct / 100))
      c.timestamp ("profit-target") config costs, rfl, rfl, rfl⟩
  · intro hside hHours
    have hEnter : shouldEnterTpZone pos.side (getHoursUntilShortZone c.timestamp config)
        config.tpZoneHoursThreshold = true := by
      simp [shouldEnterTpZone, hside, hHours]
    rw [checkPosition_eq_of_enterTp config costs s c pos hp hside hTp hBest hEnter]
    refine ⟨rfl, ?_⟩
    have hbp : bestPriceOf pos c = c.high := by
      simp [bestPriceOf, hside]
    rw [hbp]
  · intro hside hHours
    have hEnter : shouldEnterTpZone pos.side (getHoursUntilShortZone c.timestamp config)
        config.tpZoneHoursThreshold = false := by
      simp [shouldEnterTpZone, hHours]
    rw [checkPosition_eq_of_targetLong config costs s c pos hp hside hTp hBest hEnter]
    refine ⟨rfl, closeTrade pos (pos.entryPrice * (1 + config.profitTargetPct / 100))
      c.timestamp ("profit-target") config costs, rfl, rfl, rfl⟩

/-- Claim C2: while in the TP zone, the peak is first updated to the maximum
of the stored peak and the candle high; then, in priority order, a candle
low below entry closes at entry times 0.999 with reason "tp-below-entry", a
drop from peak at or beyond the trailing stop closes at the trailing level
with reason "tp-trailing-stop", reaching the time threshold closes at the
candle close with reason "tp-time-exit", and otherwise the position stays
open with the updated peak. -/
theorem claimC2 (config : Config) (costs : Costs) (s : BTState) (c : Candle) (pos : Position)
    (hp : s.position = some pos) (hside : pos.side = Side.long)
    (hTp : pos.inTpZone = true) :
    (c.low < pos.entryPrice →
      (checkPosition config costs s c).position = none ∧
      ∃ t, (checkPosition config costs s c).trades = s.trades ++ [t] ∧
        t.exitReason = "tp-below-entry" ∧ t.exitPrice = pos.entryPrice * 0.999) ∧
    (¬c.low < pos.entryPrice →
      (updatedPeak pos c - c.low) / updatedPeak pos c * 100 ≥ config.tpZoneTrailingStopPct →
      (checkPosition config costs s c).position = none ∧
      ∃ t, (checkPosition config costs s c).trades = s.trades ++ [t] ∧
        t.exitReason = "tp-trailing-stop" ∧
        t.exitPrice = updatedPeak pos c * (1 - config.tpZoneTrailingStopPct / 100)) ∧
    (¬c.low < pos.entryPrice →
      ¬(updatedPeak pos c - c.low) / updatedPeak pos c * 100 ≥ config.tpZoneTrailingStopPct →
      getHoursUntilShortZone c.timestamp config ≤ config.tpZoneHoursThreshold →
      (checkPosition config costs s c).position = none ∧
      ∃ t, (checkPosition config costs s c).trades = s.trades ++ [t] ∧
        t.exitReason = "tp-time-exit" ∧ t.exitPrice = c.price) ∧
    (¬c.low < pos.entryPrice →
      ¬(updatedPeak pos c - c.low) / updatedPeak pos c * 100 ≥ config.tpZoneTrailingStopPct →
      ¬getHoursUntilShortZone c.timestamp config ≤ config.tpZoneHoursThreshold →
      (checkPosition config costs s c).trades = s.trades ∧
      (checkPosition config costs s c).position =
        some ({ pos with peakPrice := some (updatedPeak pos c) })) ∧
    updatedPeak pos c = max (pos.peakPrice.getD 0) c.high := by
  refine ⟨?_, ?_, ?_, ?_, ?_⟩
  · intro hA
    have hEx : checkTpZoneExit c.low pos.entryPrice (updatedPeak pos c)
        config.tpZoneTrailingStopPct (getHoursUntilShortZone c.timestamp config)
        config.tpZoneHoursThreshold = some ("below-entry") := by
      simp only [checkTpZoneExit, if_pos hA]
    rw [checkPosition_eq_of_tpExit config costs s c pos ("below-entry") hp hside hTp hEx]
    refine ⟨rfl, closeTrade pos (tpExitPrice config pos c ("below-entry")) c.timestamp
      ("tp-" ++ "below-entry") config costs, rfl, rfl, ?_⟩
    show tpExitPrice config pos c ("below-entry") = pos.entryPrice * 0.999
    simp [tpExitPrice]
  · intro hA hB
    have hEx : checkTpZoneExit c.low pos.entryPrice (updatedPeak pos c)
        config.tpZoneTrailingStopPct (getHoursUntilShortZone c.timestamp config)
        config.tpZoneHoursThreshold = some ("trailing-stop") := by
      simp only [checkTpZoneExit, if_neg hA, if_pos hB]
    rw [checkPosition_eq_of_tpExit config costs s c pos ("trailing-stop") hp hside hTp hEx]
    refine ⟨rfl, closeTrade pos (tpExitPrice config pos c ("trailing-stop")) c.timestamp
      ("tp-" ++ "trailing-stop") config costs, rfl, rfl, ?_⟩
    show tpExitPrice config pos c ("trailing-stop") =
      updatedPeak pos c * (1 - config.tpZoneTrailingStopPct / 100)
    simp [tpExitPrice]
  · intro hA hB hC
    have hEx : checkTpZoneExit c.low pos.entryPrice (updatedPeak pos c)
        config.tpZoneTrailingStopPct (getHoursUntilShortZone c.timestamp config)
        config.tpZoneHoursThreshold = some ("time-exit") := by
      simp only [checkTpZoneExit, if_neg hA, if_neg hB, if_pos hC]
    rw [checkPosition_eq_of_tpExit config costs s c pos ("time-exit") hp hside hTp hEx]
    refine ⟨rfl, closeTrade pos (tpExitPrice config pos c ("time-exit")) c.timestamp
      ("tp-" ++ "time-exit") config costs, rfl, rfl, ?_⟩
    show tpExitPrice config pos c ("time-exit") = c.price
    simp [tpExitPrice]
  · intro hA hB hC
    have hEx : checkTpZoneExit c.low pos.entryPrice (updatedPeak pos c)
        config.tpZoneTrailingStopPct (getHoursUntilShortZone c.timestamp config)
        config.tpZoneHoursThreshold = none := by
      simp only [checkTpZoneExit, if_neg hA, if_neg hB, if_neg hC]
    rw [checkPosition_eq_of_tpStay config costs s c pos hp hside hTp hEx]
    exact ⟨rfl, rfl⟩
  · rcases le_or_lt c.high (pos.peakPrice.getD 0) with hle | hlt
    · rw [updatedPeak, if_neg (not_lt.mpr hle)]
      exact (max_eq_left hle).symm
    · rw [updatedPeak, if_pos hlt]
      exact (max_eq_right (le_of_lt hlt)).symm

theorem stepEx1_eq : step DEFAULT_CONFIG DEFAULT_COSTS initState cEx1 = exState1 := by
  simp [step, applyFlip, checkPosition, initState, exState1, cEx1, tsMon0928,
    DEFAULT_CONFIG, DEFAULT_COSTS, getZone, HOLIDAYS]

theorem stepEx2_eq : step DEFAULT_CONFIG DEFAULT_COSTS exState1 cEx2 = exState2 := by
  simp [step, applyFlip, checkPosition, exState1, exState2, exPosShort, cEx2, tsMon0929,
    DEFAULT_CONFIG, DEFAULT_COSTS, getZone, HOLIDAYS, calcProfitPct, bestPriceOf]
  norm_num

theorem runLoop_exCandles : runLoop DEFAULT_CONFIG DEFAULT_COSTS exCandles = exState2 := by
  show List.foldl (step DEFAULT_CONFIG DEFAULT_COSTS) initState [cEx1, cEx2] = exState2
  rw [List.foldl_cons, stepEx1_eq, List.foldl_cons, stepEx2_eq, List.foldl_nil]

theorem finalState_exCandles :
    finalState DEFAULT_CONFIG DEFAULT_COSTS exCandles =
      recordClose DEFAULT_CONFIG DEFAULT_COSTS exState2 exPosShort 100000 tsMon0929
        ("backtest-end") := by
  simp only [finalState, runLoop_exCandles]
  rfl

theorem exTrade_netPnl : exTrade.netPnlPct = -2 := by
  simp [exTrade, closeTrade, calcNetPnl, calcTradePnl, calcProfitPct, calcTradingCosts,
    exPosShort, tsMon0929, DEFAULT_CONFIG, DEFAULT_COSTS]
  norm_num

theorem runBacktest_exCandles_trades :
    (runBacktest exCandles DEFAULT_CONFIG DEFAULT_COSTS).trades = [exTrade] := by
  obtain ⟨htr, _, _⟩ := runBacktest_proj exCandles DEFAULT_CONFIG DEFAULT_COSTS
  rw [htr, finalState_exCandles]
  show exState2.trades ++ [exTrade] = [exTrade]
  rfl

theorem runBacktest_exCandles_maxDD :
    (runBacktest exCandles DEFAULT_CONFIG DEFAULT_COSTS).maxDrawdownPct = 0 := by
  obtain ⟨_, _, hmd⟩ := runBacktest_proj exCandles DEFAULT_CONFIG DEFAULT_COSTS
  rw [hmd, finalState_exCandles]
  show exState2.maxDrawdown = 0
  rfl

/-- Counterexample for claim C4 as stated: on the two-candle example run the
returned maxDrawdownPct is 0, while the maximum of the drawdowns recomputed
after every trade closure, including the final backtest-end closure, is 2
(the final trade loses 2 percent of equity and the loop never recomputes the
drawdown after it). -/
theorem claimC4_counterexample :
    (runBacktest exCandles DEFAULT_CONFIG DEFAULT_COSTS).maxDrawdownPct ≠
      claimedMaxDrawdownPerClosure
        (runBacktest exCandles DEFAULT_CONFIG DEFAULT_COSTS).trades := by
  rw [runBacktest_exCandles_maxDD, runBacktest_exCandles_trades]
  have h : claimedMaxDrawdownPerClosure [exTrade] = 2 := by
    simp only [claimedMaxDrawdownPerClosure, List.foldl_cons, List.foldl_nil, perClosureFold,
      exTrade_netPnl]
    norm_num [max_def]
  rw [h]
  norm_num

theorem claimC3_witness :
    exTrade.grossPnlPct = claimedPricePct exTrade * DEFAULT_CONFIG.leverage ∧
    exTrade.netPnlPct = exTrade.grossPnlPct -
      DEFAULT_CONFIG.leverage * claimedTotalCostPct DEFAULT_COSTS exTrade :=
  claimC3 exCandles DEFAULT_CONFIG DEFAULT_COSTS exTrade
    (by rw [runBacktest_exCandles_trades]; exact List.mem_singleton.mpr rfl)

theorem claimC9_witness : (runBacktest [cSat] DEFAULT_CONFIG DEFAULT_COSTS).trades = [] :=
  (claimC9 cSat [] DEFAULT_CONFIG DEFAULT_COSTS).1 ⟨Side.long, by decide⟩

theorem claimC1_witness :
    (checkPosition DEFAULT_CONFIG DEFAULT_COSTS exState2 cExShortTarget).position = none ∧
    ∃ t, (checkPosition DEFAULT_CONFIG DEFAULT_COSTS exState2 cExShortTarget).trades =
        exState2.trades ++ [t] ∧
      t.exitReason = "profit-target" ∧
      t.exitPrice = exPosShort.entryPrice * (1 - DEFAULT_CONFIG.profitTargetPct / 100) :=
  (claimC1 DEFAULT_CONFIG DEFAULT_COSTS exState2 cExShortTarget exPosShort rfl rfl
    (by simp [calcProfitPct, bestPriceOf, exPosShort, cExShortTarget, DEFAULT_CONFIG]
        norm_num)).1 rfl

theorem claimC2_witness :
    (checkPosition DEFAULT_CONFIG DEFAULT_COSTS exStateTp cExTpDip).position = none ∧
    ∃ t, (checkPosition DEFAULT_CONFIG DEFAULT_COSTS exStateTp cExTpDip).trades =
        exStateTp.trades ++ [t] ∧
      t.exitReason = "tp-below-entry" ∧ t.exitPrice = exPosTp.entryPrice * 0.999 :=
  (claimC2 DEFAULT_CONFIG DEFAULT_COSTS exStateTp cExTpDip exPosTp rfl rfl rfl).1
    (by norm_num [cExTpDip, exPosTp])
